import Mathlib

/-!
Verification development for the session-aware browser automation engine of
`skills/hattrick-mcp.py`.

The Python module is shallowly embedded: Python strings are `List Char`
(named `Str`), the on-disk session file is the inductive `StoreFile`
(absent / unparsable / parsed JSON dict), the Playwright page is an abstract
interface `Page σ` whose operations return `Except Str β` (an exception or a
value) and thread an opaque page state `σ`, and the engine's functions
(`_load_session`, `_save_session`, `_trunc`, `fastPath`, `slowPath`, `flow`,
`_open_page`, `execStep`, `runAux`, `run`, `hattrick_action`) are translated
from the source, keeping the source's names.  A ghost trace of browser calls
(`PCall`) records every operation the engine performs against the page, so
that statements such as "this step is never attempted against the browser"
or "the navigation target is rewritten onto the authenticated host" are
expressible as facts about the trace.
-/

/-- Python strings are modelled as lists of characters. -/
abbrev Str := List Char

deriving instance DecidableEq for Except

/-- Python `s.startswith(p)` on character lists. -/
def startsWithL : Str → Str → Bool
  | _, [] => true
  | [], _ :: _ => false
  | c :: s, p :: ps => c = p && startsWithL s ps

/-- Python `pat in s` (substring containment). -/
def hasSubstr : Str → Str → Bool
  | [], pat => startsWithL [] pat
  | c :: rest, pat => startsWithL (c :: rest) pat || hasSubstr rest pat

/-- Python `s.replace(old, new, 1)`: replace the first occurrence of `old`
(if any) by `new`. -/
def replace1 (old new : Str) : Str → Str
  | [] => if old.isEmpty then new else []
  | c :: rest =>
    if startsWithL (c :: rest) old then new ++ (c :: rest).drop old.length
    else c :: replace1 old new rest

theorem startsWithL_nil (p : Str) (h : startsWithL [] p = true) : p = [] := by
  cases p with
  | nil => rfl
  | cons c cs => simp [startsWithL] at h

theorem startsWithL_append (s p : Str) (h : startsWithL s p = true) :
    s = p ++ s.drop p.length := by
  induction p generalizing s with
  | nil => simp
  | cons q qs ih =>
    cases s with
    | nil => simp [startsWithL] at h
    | cons c cs =>
      simp only [startsWithL, Bool.and_eq_true, decide_eq_true_eq] at h
      have h2 := ih cs h.2
      simp only [List.cons_append, List.length_cons, List.drop_succ_cons]
      rw [h.1]
      exact congrArg (List.cons q) h2

theorem replace1_of_startsWith (old new s : Str) (h : startsWithL s old = true) :
    replace1 old new s = new ++ s.drop old.length := by
  cases s with
  | nil =>
    have : old = [] := startsWithL_nil old h
    simp [replace1, this]
  | cons c cs => simp [replace1, h]

-- --- Config constants from the source ---

/-- `BASE = "https://www.hattrick.org"` -/
def BASE : Str := "https://www.hattrick.org".toList

/-- The `https://` scheme prefix used by the host-capturing regular
expression `(https://[^/]+)`. -/
def httpsPrefix : Str := "https://".toList

/-- `"/"` — the root-relative path marker. -/
def slashS : Str := "/".toList

/-- The `wait_until="domcontentloaded"` navigation mode. -/
def dclS : Str := "domcontentloaded".toList

/-- The `"networkidle"` wait mode. -/
def networkidleS : Str := "networkidle".toList

/-- The `"ReturnUrl"` login-redirect marker. -/
def returnUrlMark : Str := "ReturnUrl".toList

/-- The `"Startpage"` login-redirect marker. -/
def startpageMark : Str := "Startpage".toList

example : startsWithL "https://www.hattrick.org/en/".toList BASE = true := by decide
example : hasSubstr "abcReturnUrlx".toList "ReturnUrl".toList = true := by decide
example : hasSubstr "abc".toList "ReturnUrl".toList = false := by decide
example : replace1 BASE "https://www84.hattrick.org".toList
    "https://www.hattrick.org/en/".toList
    = "https://www84.hattrick.org/en/".toList := by decide

-- --- Session store (`_load_session` / `_save_session`) ---

/-- A browser cookie; the engine treats it as an opaque blob that is
replayed but never inspected. -/
structure Cookie where
  blob : Str
deriving DecidableEq

/-- The parsed content of the session file: a JSON dictionary whose
`"cookies"` and `"auth_base"` keys may each be present or absent
(`session.get` supplies defaults at the use site). -/
structure SessionDict where
  cookies : Option (List Cookie)
  auth_base : Option Str
deriving DecidableEq

/-- The empty dictionary `{}` returned by `_load_session` on failure. -/
def emptyDict : SessionDict := ⟨none, none⟩

/-- State of the backing session file: missing (`open` raises), present but
unparsable (`json.load` raises), or parsable JSON. -/
inductive StoreFile
  | absent
  | corrupt
  | json (d : SessionDict)
deriving DecidableEq

/-- The fallible body of `_load_session`: `open(...)` then `json.load(f)`,
either of which may raise. -/
def openAndParse : StoreFile → Except Str SessionDict
  | .absent => .error "FileNotFoundError".toList
  | .corrupt => .error "JSONDecodeError".toList
  | .json d => .ok d

/-- `_load_session()`: try to read and parse the session file; on any
exception return `{}`. -/
def _load_session (s : StoreFile) : SessionDict :=
  match openAndParse s with
  | .ok d => d
  | .error _ => emptyDict

/-- The fallible body of `_save_session`: `open(..., "w")` then
`json.dump({"cookies": cookies, "auth_base": auth_base}, f)`.  The flag
`wfail` models whether the write raises (an I/O fault). -/
def writeSessionFile (wfail : Bool) (cookies : List Cookie) (auth_base : Str)
    (_s : StoreFile) : Except Str StoreFile :=
  if wfail then .error "OSError".toList
  else .ok (.json ⟨some cookies, some auth_base⟩)

/-- `_save_session(cookies, auth_base)`: write the record; on any exception
`pass` (the store is left as it was, nothing is raised). -/
def _save_session (wfail : Bool) (cookies : List Cookie) (auth_base : Str)
    (s : StoreFile) : StoreFile :=
  match writeSessionFile wfail cookies auth_base s with
  | .ok s2 => s2
  | .error _ => s

-- --- `_trunc` ---

/-- The truncation marker `"\n...(truncated)"`. -/
def truncMarker : Str := "\n...(truncated)".toList

/-- `_trunc(text, limit)`:
`text[:limit] + "\n...(truncated)" if len(text) > limit else text`
(the conditional expression governs the whole sum). -/
def _trunc (text : Str) (limit : Nat) : Str :=
  if text.length > limit then text.take limit ++ truncMarker else text

example : _trunc "hello".toList 3 = "hel\n...(truncated)".toList := by decide
example : _trunc "hello".toList 5 = "hello".toList := by decide

-- --- Page snapshot data (`captured` dict) ---

/-- One extracted hyperlink `{href, text}`. -/
structure Link where
  href : Str
  text : Str
deriving DecidableEq

/-- One extracted table: rows of trimmed cell text. -/
structure Table where
  rows : List (List Str)
deriving DecidableEq

/-- The `captured` dictionary of `_open_page`
(`{"text": "", "url": target_url, "links": [], "tables": [], "error": None}`;
the unused `"elements"` slot is omitted). -/
structure Captured where
  text : Str
  url : Str
  links : List Link
  tables : List Table
  error : Option Str
deriving DecidableEq

-- --- Browser call trace ---

/-- A ghost record of one Playwright operation the engine performs,
with the arguments it was given.  `evalLinks` and `evalTables` stand for
`page.evaluate` of the fixed link- and table-extraction scripts. -/
inductive PCall
  | fetchInit
  | addCookies (cs : List Cookie)
  | goto (url waitUntil : Str) (timeout : Nat)
  | waitForTimeout (ms : Int)
  | locCount (sel : Str)
  | firstIsVisible (sel : Str)
  | firstClick (sel : Str)
  | locClick (sel : Str)
  | click (sel : Str) (timeout : Nat)
  | fill (sel val : Str) (timeout : Option Nat)
  | selectOption (sel val : Str) (timeout : Nat)
  | check (sel : Str) (timeout : Nat)
  | uncheck (sel : Str) (timeout : Nat)
  | hover (sel : Str) (timeout : Nat)
  | press (sel key : Str) (timeout : Nat)
  | dragAndDrop (src tgt : Str) (timeout : Nat)
  | evaluate (js : Str)
  | waitForUrl (pat : Str) (timeout : Nat)
  | waitForLoadState (state : Str) (timeout : Nat)
  | contextCookies
  | evalLinks
  | evalTables
deriving DecidableEq

/-- The Playwright page, as the abstract interface the engine uses.  Each
operation consumes a page state `σ` and either returns a value or raises
(`Except Str`), so a `Page σ` describes an arbitrary site/browser behaviour,
including history-dependent ones.  `getUrl` models the pure property access
`page.url`.  `evaluate` models `page.evaluate(js)` for string-valued
scripts (the stringified result); `evalLinks` / `evalTables` model
`page.evaluate` of the two fixed extraction scripts, typed by the shape
those scripts produce. -/
structure Page (σ : Type) where
  getUrl : σ → Str
  fetchInit : σ → Except Str Unit × σ
  addCookies : List Cookie → σ → Except Str Unit × σ
  goto : Str → Str → Nat → σ → Except Str Unit × σ
  waitForTimeout : Int → σ → Except Str Unit × σ
  locCount : Str → σ → Except Str Nat × σ
  firstIsVisible : Str → σ → Except Str Bool × σ
  firstClick : Str → σ → Except Str Unit × σ
  locClick : Str → σ → Except Str Unit × σ
  click : Str → Nat → σ → Except Str Unit × σ
  fill : Str → Str → Option Nat → σ → Except Str Unit × σ
  selectOption : Str → Str → Nat → σ → Except Str Unit × σ
  check : Str → Nat → σ → Except Str Unit × σ
  uncheck : Str → Nat → σ → Except Str Unit × σ
  hover : Str → Nat → σ → Except Str Unit × σ
  press : Str → Str → Nat → σ → Except Str Unit × σ
  dragAndDrop : Str → Str → Nat → σ → Except Str Unit × σ
  evaluate : Str → σ → Except Str Str × σ
  waitForUrl : Str → Nat → σ → Except Str Unit × σ
  waitForLoadState : Str → Nat → σ → Except Str Unit × σ
  contextCookies : σ → Except Str (List Cookie) × σ
  evalLinks : σ → Except Str (List Link) × σ
  evalTables : σ → Except Str (List Table) × σ

/-- The world a Playwright page callback threads: the page state and the
ghost trace of browser calls.  The `captured` dictionary and the session
file are passed separately: the page callback receives only the page, so it
can never touch either. -/
structure W (σ : Type) where
  pg : σ
  trace : List PCall
deriving DecidableEq

/-- Perform one page operation: run it on the page state and append its
ghost record to the trace. -/
def callP (c : PCall) (f : σ → Except Str β × σ) (w : W σ) :
    Except Str β × W σ :=
  let r := f w.pg
  (r.1, { w with pg := r.2, trace := w.trace ++ [c] })

-- --- Target rewriting and host capture ---

/-- The rewriting expression used on both authentication paths:
`t.replace(BASE, b, 1) if t.startswith(BASE) else b + t if t.startswith("/")
else t`. -/
def rewriteTarget (target base2 : Str) : Str :=
  if startsWithL target BASE then replace1 BASE base2 target
  else if startsWithL target slashS then base2 ++ target
  else target

/-- `re.match(r"(https://[^/]+)", url)` and its group 1: the scheme plus the
maximal nonempty run of non-`/` characters, anchored at the start. -/
def captureHost (url : Str) : Option Str :=
  if startsWithL url httpsPrefix then
    let host := (url.drop httpsPrefix.length).takeWhile (fun c => c ≠ '/')
    if host.isEmpty then none else some (httpsPrefix ++ host)
  else none

example : captureHost "https://www84.hattrick.org/en/x".toList
    = some "https://www84.hattrick.org".toList := by decide
example : captureHost "about:blank".toList = none := by decide

-- --- Page Session Controller: fast path ---

/-- The `text=Log In` locator selector. -/
def loginSel : Str := "text=Log In".toList

/-- The fast path of `flow` (source lines 87–115): if a saved session
exists, replay its cookies, navigate straight to the target rewritten onto
the saved host, and classify validity; any exception inside the attempt is
swallowed (`except Exception: pass`).  Returns `(logged_in, auth_base)`. -/
def fastPath (P : Page σ) (saved_cookies : List Cookie)
    (saved_auth_base target_url : Str) (w : W σ) : Bool × Str × W σ :=
  let auth_base := if saved_auth_base.isEmpty then BASE else saved_auth_base
  if saved_cookies.isEmpty || saved_auth_base.isEmpty then (false, auth_base, w)
  else
    match callP (.addCookies saved_cookies) (P.addCookies saved_cookies) w with
    | (.error _, w) => (false, auth_base, w)
    | (.ok _, w) =>
      let fast_target := rewriteTarget target_url saved_auth_base
      match callP (.goto fast_target dclS 25000)
          (P.goto fast_target dclS 25000) w with
      | (.error _, w) => (false, auth_base, w)
      | (.ok _, w) =>
        match callP (.waitForTimeout 2000) (P.waitForTimeout 2000) w with
        | (.error _, w) => (false, auth_base, w)
        | (.ok _, w) =>
          let cur := P.getUrl w.pg
          if hasSubstr cur returnUrlMark || hasSubstr cur startpageMark then
            (false, auth_base, w)
          else
            match callP (.locCount loginSel) (P.locCount loginSel) w with
            | (.error _, w) => (false, auth_base, w)
            | (.ok n, w) =>
              let r :=
                if n > 0 then
                  match callP (.firstIsVisible loginSel) (P.firstIsVisible loginSel) w with
                  | (.ok b, w) => (b, w)
                  | (.error _, w) => (false, w)
                else (false, w)
              if r.1 then (false, auth_base, r.2) else (true, saved_auth_base, r.2)

-- --- Page Session Controller: slow path ---

/-- Sequence a fallible step with its continuation; an exception
short-circuits (it propagates out of the slow path uncaught). -/
def andThen (r : Except Str β × W σ) (k : β → W σ → Except Str γ × W σ) :
    Except Str γ × W σ :=
  match r with
  | (.error e, w) => (.error e, w)
  | (.ok b, w) => k b w

/-- `try: wait_for_url("**/MyHattrick/**", 15000)`
`except: wait_for_load_state("networkidle", 10000)` — the fallback's own
exception propagates. -/
def waitAuth (P : Page σ) (w : W σ) : Except Str Unit × W σ :=
  match callP (.waitForUrl "**/MyHattrick/**".toList 15000)
      (P.waitForUrl "**/MyHattrick/**".toList 15000) w with
  | (.ok _, w) => (.ok (), w)
  | (.error _, w) =>
    callP (.waitForLoadState networkidleS 10000)
      (P.waitForLoadState networkidleS 10000) w

/-- The credential-form block of the slow path (click the Log In
affordance, fill both fields, submit, wait for the authenticated area). -/
def loginForm (P : Page σ) (username password : Str) (w : W σ) :
    Except Str Unit × W σ :=
  andThen (callP (.firstClick loginSel) (P.firstClick loginSel) w) fun _ w =>
  andThen (callP (.waitForTimeout 2000) (P.waitForTimeout 2000) w) fun _ w =>
  andThen (callP (.fill "#inputLoginname".toList username none)
      (P.fill "#inputLoginname".toList username none) w) fun _ w =>
  andThen (callP (.fill "#inputPassword".toList password none)
      (P.fill "#inputPassword".toList password none) w) fun _ w =>
  andThen (callP (.waitForTimeout 500) (P.waitForTimeout 500) w) fun _ w =>
  andThen (callP (.locClick "button.primary-button:has-text(\"Log In\")".toList)
      (P.locClick "button.primary-button:has-text(\"Log In\")".toList) w) fun _ w =>
  andThen (waitAuth P w) fun _ w =>
  callP (.waitForTimeout 2000) (P.waitForTimeout 2000) w

/-- The first half of the slow path (source lines 119–140): navigate to the
home page, wait, and — when a visible Log In affordance exists — run the
credential form.  Exceptions propagate. -/
def slowPrep (P : Page σ) (username password : Str) (w : W σ) :
    Except Str Unit × W σ :=
  andThen (callP (.goto (BASE ++ "/en/".toList) networkidleS 20000)
      (P.goto (BASE ++ "/en/".toList) networkidleS 20000) w) fun _ w =>
  andThen (callP (.waitForTimeout 1500) (P.waitForTimeout 1500) w) fun _ w =>
  andThen (callP (.locCount loginSel) (P.locCount loginSel) w) fun n w =>
  andThen (if n > 0 then
      callP (.firstIsVisible loginSel) (P.firstIsVisible loginSel) w
    else (.ok false, w)) fun vis w =>
  if vis then loginForm P username password w else (.ok (), w)

/-- The slow path of `flow` (source lines 118–154): fresh credential login.
Exceptions are not caught here; they propagate to `_open_page`.  On
completion it returns the captured authenticated host, after invoking
`_save_session` with that host and the current cookie set and navigating to
the rewritten target.  `wfail`/`store` carry the session file; the third
output component is the ghost log of `_save_session` invocations made
during this run. -/
def slowPath (P : Page σ) (username password target_url : Str) (wait_ms : Int)
    (wfail : Bool) (store : StoreFile) (w : W σ) :
    Except Str Str × StoreFile × List (List Cookie × Str) × W σ :=
  match slowPrep P username password w with
  | (.error e, w) => (.error e, store, [], w)
  | (.ok _, w) =>
    let auth_base := (captureHost (P.getUrl w.pg)).getD BASE
    match callP .contextCookies P.contextCookies w with
    | (.error e, w) => (.error e, store, [], w)
    | (.ok cookies, w) =>
      let store2 := _save_session wfail cookies auth_base store
      let actual_target := rewriteTarget target_url auth_base
      match callP (.goto actual_target dclS 30000)
          (P.goto actual_target dclS 30000) w with
      | (.error e, w) => (.error e, store2, [(cookies, auth_base)], w)
      | (.ok _, w) =>
        match callP (.waitForTimeout wait_ms) (P.waitForTimeout wait_ms) w with
        | (.error e, w) => (.error e, store2, [(cookies, auth_base)], w)
        | (.ok _, w) => (.ok auth_base, store2, [(cookies, auth_base)], w)

-- --- `flow` and `_open_page` ---

/-- Ghost summary of one `flow` execution: the fast-path classification,
whether the slow path was entered, and the final `auth_base` variable. -/
structure FlowGhost where
  loggedInFast : Bool
  usedSlow : Bool
  authBase : Str
deriving DecidableEq

/-- Extraction tail of `flow` (source lines 160–177): record the final
address, then evaluate the body-text, link and table scripts in turn,
updating `captured` after each; a raised evaluation leaves the earlier
fields set. -/
def extract (P : Page σ) (c : Captured) (w : W σ) :
    Except Str Unit × Captured × W σ :=
  let c := { c with url := P.getUrl w.pg }
  match callP (.evaluate "() => document.body.innerText".toList)
      (P.evaluate "() => document.body.innerText".toList) w with
  | (.error e, w) => (.error e, c, w)
  | (.ok t, w) =>
    let c := { c with text := t }
    match callP .evalLinks P.evalLinks w with
    | (.error e, w) => (.error e, c, w)
    | (.ok ls, w) =>
      let c := { c with links := ls }
      match callP .evalTables P.evalTables w with
      | (.error e, w) => (.error e, c, w)
      | (.ok ts, w) => (.ok (), { c with tables := ts }, w)

/-- The tail of `flow` after the authentication phase: run the
caller-supplied callback (if any), then extraction.  `afterAuth` is the
outcome of the authentication phase (the final `auth_base`, or the
exception that escaped the slow path). -/
def flowTail (P : Page σ)
    (cb : Option (W σ → Except Str Unit × α × W σ)) (a0 : α) (c0 : Captured)
    (liFast usedSlow : Bool) (fbAb : Str)
    (afterAuth : Except Str Str × StoreFile × List (List Cookie × Str) × W σ) :
    Except Str Unit × α × Captured × FlowGhost × StoreFile
      × List (List Cookie × Str) × W σ :=
  match afterAuth with
  | (.error e, st, sv, w) => (.error e, a0, c0, ⟨liFast, usedSlow, fbAb⟩, st, sv, w)
  | (.ok ab, st, sv, w) =>
    let cbRes : Except Str Unit × α × W σ :=
      match cb with
      | none => (.ok (), a0, w)
      | some f => f w
    match cbRes with
    | (.error e, a, w) => (.error e, a, c0, ⟨liFast, usedSlow, ab⟩, st, sv, w)
    | (.ok _, a, w) =>
      match extract P c0 w with
      | (.error e, c, w) => (.error e, a, c, ⟨liFast, usedSlow, ab⟩, st, sv, w)
      | (.ok _, c, w) => (.ok (), a, c, ⟨liFast, usedSlow, ab⟩, st, sv, w)

/-- The `flow` page action of `_open_page`: fast path, then slow path only
when the fast path did not log in and both credentials are configured, then
the caller-supplied callback (if any), then extraction.  `α` is the
callback's auxiliary output (the `results` closure variable of
`hattrick_action`), initialised to `a0`. -/
def flow (P : Page σ) (username password : Str) (saved_cookies : List Cookie)
    (saved_auth_base target_url : Str) (wait_ms : Int)
    (cb : Option (W σ → Except Str Unit × α × W σ)) (a0 : α) (c0 : Captured)
    (wfail : Bool) (store : StoreFile) (w : W σ) :
    Except Str Unit × α × Captured × FlowGhost × StoreFile
      × List (List Cookie × Str) × W σ :=
  let fp := fastPath P saved_cookies saved_auth_base target_url w
  let usedSlow := !fp.1 && !username.isEmpty && !password.isEmpty
  flowTail P cb a0 c0 fp.1 usedSlow fp.2.1
    (if usedSlow then
      slowPath P username password target_url wait_ms wfail store fp.2.2
     else (.ok fp.2.1, store, [], fp.2.2))

/-- `_open_page(target_url, page_callback, wait_ms)`: resolve a
root-relative target against `BASE`, initialise `captured`, load the saved
session, run the fetch (its own setup navigation, then `flow`) under the
all-catching `try`, and return `captured` — with `captured["error"]` set to
the stringified exception whenever anything escaped the flow. -/
def _open_page (P : Page σ) (username password : Str) (target_url0 : Str)
    (cb : Option (W σ → Except Str Unit × α × W σ)) (a0 : α) (wait_ms : Int)
    (wfail : Bool) (store : StoreFile) (w0 : W σ) :
    Captured × α × StoreFile × List (List Cookie × Str) × W σ :=
  let target_url :=
    if startsWithL target_url0 slashS then BASE ++ target_url0 else target_url0
  let c0 : Captured := ⟨[], target_url, [], [], none⟩
  let d := _load_session store
  let saved_cookies := d.cookies.getD []
  let saved_auth_base := d.auth_base.getD []
  match callP .fetchInit P.fetchInit w0 with
  | (.error e, w) => ({ c0 with error := some e }, a0, store, [], w)
  | (.ok _, w) =>
    match flow P username password saved_cookies saved_auth_base target_url
        wait_ms cb a0 c0 wfail store w with
    | (.error e, a, c, _, st, sv, w) => ({ c with error := some e }, a, st, sv, w)
    | (.ok _, a, c, _, st, sv, w) => (c, a, st, sv, w)

-- --- Interaction Executor (`run` inside `hattrick_action`) ---

/-- One action object from the caller's JSON list; each field is present or
absent (`act.get` supplies the defaults at each use site). -/
structure Act where
  type : Option Str := none
  selector : Option Str := none
  value : Option Str := none
  url : Option Str := none
  key : Option Str := none
  ms : Option Int := none
  js : Option Str := none
  source : Option Str := none
  target : Option Str := none
deriving DecidableEq

/-- One entry of the `results` list, in the four dictionary shapes the
source appends: `{"i","type","ok"}`, `{"i","type","ok","result"}`,
`{"i","type","error"}`, and the `{"i","error"}` shape of the unknown-kind
branch. -/
inductive ActionResult
  | ok (i : Nat) (type : Str)
  | okResult (i : Nat) (type : Str) (result : Str)
  | err (i : Nat) (type : Str) (error : Str)
  | unknownErr (i : Nat) (error : Str)
deriving DecidableEq

/-- The `"i"` field of a result entry. -/
def ActionResult.index : ActionResult → Nat
  | .ok i _ => i
  | .okResult i _ _ => i
  | .err i _ _ => i
  | .unknownErr i _ => i

/-- The recognized `"type"` values of an action step. -/
def knownTypes : List Str :=
  ["click".toList, "fill".toList, "select".toList, "check".toList,
   "uncheck".toList, "hover".toList, "press".toList, "goto".toList,
   "eval".toList, "drag".toList, "wait".toList]

/-- Wrap one browser primitive in the per-step `try`: success appends
`{"i","type","ok"}`, an exception appends `{"i","type","error"}` with the
message cut to 200 characters. -/
def stepTry (i : Nat) (t : Str) (r : Except Str Unit × W σ) :
    ActionResult × W σ :=
  match r with
  | (.ok _, w) => (.ok i t, w)
  | (.error e, w) => (.err i t (e.take 200), w)

/-- One iteration of the executor loop (source lines 461–503): read the
step's fields with their defaults, dispatch on the kind, run the single
matching browser primitive under the per-step `try`, and produce exactly
one result entry.  An unrecognized kind produces an error entry without
touching the page. -/
def execStep (P : Page σ) (i : Nat) (act : Act) (w : W σ) :
    ActionResult × W σ :=
  let t := act.type.getD []
  let sel := act.selector.getD []
  let val := act.value.getD []
  if t = "click".toList then
    stepTry i t (callP (.click sel 10000) (P.click sel 10000) w)
  else if t = "fill".toList then
    stepTry i t (callP (.fill sel val (some 10000)) (P.fill sel val (some 10000)) w)
  else if t = "select".toList then
    stepTry i t (callP (.selectOption sel val 10000) (P.selectOption sel val 10000) w)
  else if t = "check".toList then
    stepTry i t (callP (.check sel 10000) (P.check sel 10000) w)
  else if t = "uncheck".toList then
    stepTry i t (callP (.uncheck sel 10000) (P.uncheck sel 10000) w)
  else if t = "hover".toList then
    stepTry i t (callP (.hover sel 10000) (P.hover sel 10000) w)
  else if t = "press".toList then
    let key := act.key.getD "Enter".toList
    stepTry i t (callP (.press sel key 10000) (P.press sel key 10000) w)
  else if t = "goto".toList then
    let goto_url0 := act.url.getD []
    let goto_url :=
      if startsWithL goto_url0 slashS then BASE ++ goto_url0 else goto_url0
    stepTry i t (andThen (callP (.goto goto_url networkidleS 20000)
        (P.goto goto_url networkidleS 20000) w) fun _ w =>
      callP (.waitForTimeout 2000) (P.waitForTimeout 2000) w)
  else if t = "eval".toList then
    let js := act.js.getD []
    match callP (.evaluate js) (P.evaluate js) w with
    | (.ok v, w) => (.okResult i t (v.take 500), w)
    | (.error e, w) => (.err i t (e.take 200), w)
  else if t = "drag".toList then
    let src := act.source.getD []
    let tgt := act.target.getD []
    stepTry i t (callP (.dragAndDrop src tgt 10000) (P.dragAndDrop src tgt 10000) w)
  else if t = "wait".toList then
    let ms := act.ms.getD 2000
    stepTry i t (callP (.waitForTimeout ms) (P.waitForTimeout ms) w)
  else
    (.unknownErr i ("unknown: ".toList ++ t), w)

/-- The executor loop `for i, act in enumerate(action_list)`, carrying the
running index. -/
def runAux (P : Page σ) : Nat → List Act → W σ → List ActionResult × W σ
  | _, [], w => ([], w)
  | i, a :: rest, w =>
    let s := execStep P i a w
    let r := runAux P (i + 1) rest s.2
    (s.1 :: r.1, r.2)

/-- The `run` page callback of `hattrick_action`: execute every step, then
the settle delay `wait_for_timeout(1500)` (whose exception, unlike the
steps', propagates). -/
def run (P : Page σ) (acts : List Act) (w : W σ) :
    Except Str Unit × List ActionResult × W σ :=
  let r := runAux P 0 acts w
  match callP (.waitForTimeout 1500) (P.waitForTimeout 1500) r.2 with
  | (.ok _, w) => (.ok (), r.1, w)
  | (.error e, w) => (.error e, r.1, w)

-- --- `hattrick_action` ---

/-- The JSON payload `hattrick_action` returns: the error-only shape of the
malformed-input branch, or the full shape after a browser run. -/
structure ActionResponse where
  url : Option Str
  actions : Option (List ActionResult)
  text : Option Str
  error : Option Str
deriving DecidableEq

/-- `hattrick_action(url, actions)`: parse the action list (the parse
outcome of `json.loads` is supplied as `parsed`); on a parse error return
`{"error": "Invalid JSON: ..."}` at once, otherwise run `_open_page` with
the `run` callback and assemble the response. -/
def hattrick_action (P : Page σ) (username password url : Str)
    (parsed : Except Str (List Act)) (wfail : Bool) (store : StoreFile)
    (w0 : W σ) : ActionResponse × StoreFile × W σ :=
  match parsed with
  | .error e =>
    (⟨none, none, none, some ("Invalid JSON: ".toList ++ e)⟩, store, w0)
  | .ok acts =>
    let r := _open_page P username password url
      (some (fun w => run P acts w)) ([] : List ActionResult) 3000 wfail store w0
    (⟨some r.1.url, some r.2.1, some (_trunc r.1.text 3000), r.1.error⟩,
     r.2.2.1, r.2.2.2.2)

-- --- Concrete instances used by witnesses and counterexamples ---

/-- A deterministic page: every operation succeeds, the address is always
`u`, the `text=Log In` locator matches `cnt` elements whose visibility is
`vis`. -/
def okPage (u : Str) (cnt : Nat) (vis : Bool) : Page Unit where
  getUrl := fun _ => u
  fetchInit := fun s => (.ok (), s)
  addCookies := fun _ s => (.ok (), s)
  goto := fun _ _ _ s => (.ok (), s)
  waitForTimeout := fun _ s => (.ok (), s)
  locCount := fun _ s => (.ok cnt, s)
  firstIsVisible := fun _ s => (.ok vis, s)
  firstClick := fun _ s => (.ok (), s)
  locClick := fun _ s => (.ok (), s)
  click := fun _ _ s => (.ok (), s)
  fill := fun _ _ _ s => (.ok (), s)
  selectOption := fun _ _ _ s => (.ok (), s)
  check := fun _ _ s => (.ok (), s)
  uncheck := fun _ _ s => (.ok (), s)
  hover := fun _ _ s => (.ok (), s)
  press := fun _ _ _ s => (.ok (), s)
  dragAndDrop := fun _ _ _ s => (.ok (), s)
  evaluate := fun _ s => (.ok "ok".toList, s)
  waitForUrl := fun _ _ s => (.ok (), s)
  waitForLoadState := fun _ _ s => (.ok (), s)
  contextCookies := fun s => (.ok [⟨"sid=fresh".toList⟩], s)
  evalLinks := fun s => (.ok [], s)
  evalTables := fun s => (.ok [], s)

/-- Like `okPage`, but every navigation and every step primitive raises. -/
def failPage (u : Str) : Page Unit :=
  { okPage u 0 false with
    goto := fun _ _ _ s => (.error "Timeout 25000ms exceeded".toList, s)
    click := fun _ _ s => (.error "no element matches selector".toList, s) }

/-- The authenticated subdomain used in concrete runs. -/
def www84 : Str := "https://www84.hattrick.org".toList

/-- A concrete stored cookie. -/
def ck : Cookie := ⟨"sid=abc".toList⟩

/-- The initial world of a concrete run: unit page state, empty trace. -/
def wInit : W Unit := ⟨(), []⟩

/-- A session file holding a stored session for `www84`. -/
def stStored : StoreFile := .json ⟨some [ck], some www84⟩

/-- A page sitting on an authenticated `www84` address with no Log In
control. -/
def pgValid : Page Unit := okPage "https://www84.hattrick.org/en/Club/?TeamID=1".toList 0 false

example : (fastPath pgValid [ck] www84 "https://www.hattrick.org/en/Club/".toList wInit).1
    = true := by decide
example : (fastPath (okPage "https://www84.hattrick.org/?ReturnUrl=x".toList 0 false)
    [ck] www84 BASE wInit).1 = false := by decide
example : (fastPath (failPage "x".toList) [ck] www84 BASE wInit).1 = false := by decide
example : (slowPath pgValid "u".toList "p".toList "/en/x".toList 3000 false .absent wInit).1
    = Except.ok www84 := by decide

-- --- Executor lemmas ---

theorem stepTry_snd (i : Nat) (t : Str) (r : Except Str Unit × W σ) :
    (stepTry i t r).2 = r.2 := by
  rcases r with ⟨e, w⟩
  cases e <;> rfl

theorem stepTry_index (i : Nat) (t : Str) (r : Except Str Unit × W σ) :
    (stepTry i t r).1.index = i := by
  rcases r with ⟨e, w⟩
  cases e <;> rfl

/-- A step whose kind is none of the recognized ones reaches the final
`else`: one error entry, and the world — page state and trace included —
is returned untouched. -/
theorem execStep_unknown (P : Page σ) (i : Nat) (a : Act) (w : W σ)
    (h : a.type.getD [] ∉ knownTypes) :
    execStep P i a w = (.unknownErr i ("unknown: ".toList ++ a.type.getD []), w) := by
  simp only [knownTypes, List.mem_cons, List.not_mem_nil, or_false, not_or] at h
  obtain ⟨h1, h2, h3, h4, h5, h6, h7, h8, h9, h10, h11⟩ := h
  simp only [execStep]
  rw [if_neg h1, if_neg h2, if_neg h3, if_neg h4, if_neg h5, if_neg h6,
      if_neg h7, if_neg h8, if_neg h9, if_neg h10, if_neg h11]

/-- Every iteration of the executor loop stamps the result entry with the
step's own index. -/
theorem execStep_index (P : Page σ) (i : Nat) (a : Act) (w : W σ) :
    (execStep P i a w).1.index = i := by
  by_cases h1 : a.type.getD [] = "click".toList
  · simp [execStep, h1, stepTry_index]
  by_cases h2 : a.type.getD [] = "fill".toList
  · simp [execStep, h1, h2, stepTry_index]
  by_cases h3 : a.type.getD [] = "select".toList
  · simp [execStep, h1, h2, h3, stepTry_index]
  by_cases h4 : a.type.getD [] = "check".toList
  · simp [execStep, h1, h2, h3, h4, stepTry_index]
  by_cases h5 : a.type.getD [] = "uncheck".toList
  · simp [execStep, h1, h2, h3, h4, h5, stepTry_index]
  by_cases h6 : a.type.getD [] = "hover".toList
  · simp [execStep, h1, h2, h3, h4, h5, h6, stepTry_index]
  by_cases h7 : a.type.getD [] = "press".toList
  · simp [execStep, h1, h2, h3, h4, h5, h6, h7, stepTry_index]
  by_cases h8 : a.type.getD [] = "goto".toList
  · simp [execStep, h1, h2, h3, h4, h5, h6, h7, h8, stepTry_index]
  by_cases h9 : a.type.getD [] = "eval".toList
  · rcases hc : callP (PCall.evaluate (a.js.getD [])) (P.evaluate (a.js.getD [])) w
      with ⟨e, w2⟩
    cases e <;>
      simp [execStep, h1, h2, h3, h4, h5, h6, h7, h8, h9, hc, ActionResult.index]
  by_cases h10 : a.type.getD [] = "drag".toList
  · simp [execStep, h1, h2, h3, h4, h5, h6, h7, h8, h9, h10, stepTry_index]
  by_cases h11 : a.type.getD [] = "wait".toList
  · simp [execStep, h1, h2, h3, h4, h5, h6, h7, h8, h9, h10, h11, stepTry_index]
  · rw [execStep_unknown P i a w (by
      simp only [knownTypes, List.mem_cons, List.not_mem_nil, or_false, not_or]
      exact ⟨h1, h2, h3, h4, h5, h6, h7, h8, h9, h10, h11⟩)]
    rfl

theorem runAux_length (P : Page σ) (acts : List Act) :
    ∀ (i : Nat) (w : W σ), ((runAux P i acts w).1).length = acts.length := by
  induction acts with
  | nil => intro i w; rfl
  | cons a rest ih => intro i w; simp [runAux, ih]

theorem runAux_map_index (P : Page σ) (acts : List Act) :
    ∀ (i : Nat) (w : W σ),
      (runAux P i acts w).1.map ActionResult.index = List.range' i acts.length := by
  induction acts with
  | nil => intro i w; rfl
  | cons a rest ih =>
    intro i w
    simp [runAux, List.range'_succ, ih, execStep_index]

theorem run_results (P : Page σ) (acts : List Act) (w : W σ) :
    (run P acts w).2.1 = (runAux P 0 acts w).1 := by
  unfold run
  rcases hc : callP (.waitForTimeout 1500) (P.waitForTimeout 1500) (runAux P 0 acts w).2
    with ⟨e, w2⟩
  cases e <;> simp [hc]

-- --- Concrete action steps for witnesses ---

/-- `{"type": "click", "selector": "#b"}` -/
def actClickB : Act := { type := some "click".toList, selector := some "#b".toList }

/-- `{"type": "click"}` (no selector) -/
def actClickNoSel : Act := { type := some "click".toList }

/-- `{"type": "fill"}` (no selector, no value) -/
def actFillNoSel : Act := { type := some "fill".toList }

/-- `{"type": "press", "selector": "#in"}` (no key) -/
def actPressNoKey : Act := { type := some "press".toList, selector := some "#in".toList }

/-- `{"type": "wait"}` (no ms) -/
def actWaitD : Act := { type := some "wait".toList }

/-- `{"type": "frobnicate"}` (unrecognized kind) -/
def actFrob : Act := { type := some "frobnicate".toList }

/-- `{"selector": "#x"}` (no type at all) -/
def actNoType : Act := { selector := some "#x".toList }

/-- `{"type": "goto", "url": "/en/Club/"}` -/
def actGotoClub : Act := { type := some "goto".toList, url := some "/en/Club/".toList }

-- --- Claim C1 ---

/-- C1: for every caller-supplied action sequence of length N executed by
the Interaction Executor, the produced ActionResult sequence has exactly N
entries, one per input step, in the same order as the input (the `"i"`
fields are `0, …, N-1` in order), regardless of whether individual steps
succeed or fail; a raised browser exception in one step (here: a failing
`click`) is recorded in that step's result entry and execution continues
with the next step. -/
theorem C1_action_results_one_per_step {σ : Type} (P : Page σ) (acts : List Act)
    (w : W σ) :
    ((run P acts w).2.1).length = acts.length ∧
    ((run P acts w).2.1).map ActionResult.index = List.range acts.length ∧
    (∀ (i : Nat) (a : Act) (rest : List Act) (w1 : W σ),
        runAux P i (a :: rest) w1
          = ((execStep P i a w1).1 :: (runAux P (i + 1) rest (execStep P i a w1).2).1,
             (runAux P (i + 1) rest (execStep P i a w1).2).2)) ∧
    (∀ (i : Nat) (a : Act) (w1 : W σ) (e : Str) (s1 : σ),
        a.type = some "click".toList →
        P.click (a.selector.getD []) 10000 w1.pg = (.error e, s1) →
        execStep P i a w1
          = (.err i "click".toList (List.take 200 e),
             { w1 with pg := s1,
                       trace := w1.trace ++ [.click (a.selector.getD []) 10000] })) := by
  refine ⟨?_, ?_, ?_, ?_⟩
  · rw [run_results]
    exact runAux_length P acts 0 w
  · rw [run_results, runAux_map_index]
    exact (List.range_eq_range' _).symm
  · intro i a rest w1
    rfl
  · intro i a w1 e s1 ha hclick
    simp [execStep, ha, callP, hclick, stepTry]

/-- Witness for C1 at a concrete two-step sequence against a page whose
`click` raises. -/
theorem C1_witness :
    ((run (failPage "u".toList) [actClickB, actWaitD] wInit).2.1).length = 2 ∧
    ((run (failPage "u".toList) [actClickB, actWaitD] wInit).2.1).map ActionResult.index
      = List.range 2 ∧
    execStep (failPage "u".toList) 0 actClickB wInit
      = (.err 0 "click".toList (List.take 200 "no element matches selector".toList),
         { wInit with pg := (),
                       trace := wInit.trace ++ [.click "#b".toList 10000] }) := by
  refine ⟨?_, ?_, ?_⟩
  · exact (C1_action_results_one_per_step (failPage "u".toList) [actClickB, actWaitD]
      wInit).1
  · exact (C1_action_results_one_per_step (failPage "u".toList) [actClickB, actWaitD]
      wInit).2.1
  · exact (C1_action_results_one_per_step (failPage "u".toList) [actClickB, actWaitD]
      wInit).2.2.2 0 actClickB wInit "no element matches selector".toList () rfl rfl

-- --- Claim C3 ---

/-- C3: saving a session record and then loading returns the just-saved
record (round-trip, for every prior store state); loading from an absent or
corrupt backing store returns the empty record — by construction of the
exception-catching wrappers nothing is ever raised — and a failing save is
swallowed, leaving the store as it was. -/
theorem C3_session_store_roundtrip :
    (∀ (c : List Cookie) (hb : Str) (s : StoreFile),
        _load_session (_save_session false c hb s) = ⟨some c, some hb⟩) ∧
    _load_session .absent = emptyDict ∧
    _load_session .corrupt = emptyDict ∧
    (∀ (c : List Cookie) (hb : Str) (s : StoreFile), _save_session true c hb s = s) :=
  ⟨fun _ _ _ => rfl, rfl, rfl, fun _ _ _ => rfl⟩

-- --- Claim C4 ---

/-- C4: for every input string and every cap, `_trunc`'s output length
never exceeds the cap plus the length of the truncation marker; the marker
is appended exactly when the input exceeds the cap; and any input at or
under the cap is returned unmodified with no marker. -/
theorem C4_trunc_bounds (t : Str) (limit : Nat) :
    (_trunc t limit).length ≤ limit + truncMarker.length ∧
    (t.length ≤ limit → _trunc t limit = t) ∧
    (limit < t.length → _trunc t limit = t.take limit ++ truncMarker) := by
  refine ⟨?_, ?_, ?_⟩
  · unfold _trunc
    split
    · rename_i hgt
      rw [List.length_append, List.length_take, Nat.min_eq_left (Nat.le_of_lt hgt)]
    · rename_i hle
      have h2 : t.length ≤ limit := by omega
      exact Nat.le_trans h2 (Nat.le_add_right _ _)
  · intro hle
    unfold _trunc
    rw [if_neg (by omega)]
  · intro hlt
    unfold _trunc
    rw [if_pos (by omega)]

/-- Witness for C4 at a concrete over-cap and under-cap input. -/
theorem C4_witness :
    _trunc "hello".toList 3 = "hel".toList ++ truncMarker ∧
    _trunc "hi".toList 3 = "hi".toList := by
  constructor
  · rw [(C4_trunc_bounds "hello".toList 3).2.2 (by decide)]
    rfl
  · exact (C4_trunc_bounds "hi".toList 3).2.1 (by decide)

-- --- Claim C8 ---

/-- C8: for every action-list string that is not parsable as JSON (a parse
outcome `Except.error e` of `json.loads`), `hattrick_action` returns the
structured `{"error": "Invalid JSON: ..."}` payload immediately and performs
no browser interaction at all: the world — browser-call trace included — is
returned exactly as it was, and the browser flow is never started. -/
theorem C8_invalid_json_no_browser {σ : Type} (P : Page σ)
    (username password url e : Str) (wfail : Bool) (store : StoreFile)
    (w : W σ) :
    hattrick_action P username password url (.error e) wfail store w
      = (⟨none, none, none, some ("Invalid JSON: ".toList ++ e)⟩, store, w) ∧
    (hattrick_action P username password url (.error e) wfail store w).2.2.trace
      = w.trace :=
  ⟨rfl, rfl⟩

-- --- Claim C9 ---

/-- C9: an action step whose kind is not one of the recognized kinds yields
exactly one error ActionResult for that step; the step is never attempted
against the browser (the world, its browser-call trace included, is
untouched) and is not retried; execution proceeds to the next step. -/
theorem C9_unknown_kind_single_error {σ : Type} (P : Page σ) (i : Nat) (a : Act)
    (w : W σ) (rest : List Act) (h : a.type.getD [] ∉ knownTypes) :
    execStep P i a w = (.unknownErr i ("unknown: ".toList ++ a.type.getD []), w) ∧
    runAux P i (a :: rest) w
      = (.unknownErr i ("unknown: ".toList ++ a.type.getD [])
          :: (runAux P (i + 1) rest w).1,
         (runAux P (i + 1) rest w).2) := by
  have h1 := execStep_unknown P i a w h
  refine ⟨h1, ?_⟩
  simp [runAux, h1]

/-- Witness for C9 at a concrete `frobnicate` step followed by a `wait`
step. -/
theorem C9_witness :
    execStep (okPage "u".toList 0 false) 0 actFrob wInit
      = (.unknownErr 0 ("unknown: ".toList ++ actFrob.type.getD []), wInit) ∧
    runAux (okPage "u".toList 0 false) 0 [actFrob, actWaitD] wInit
      = (.unknownErr 0 ("unknown: ".toList ++ actFrob.type.getD [])
          :: (runAux (okPage "u".toList 0 false) 1 [actWaitD] wInit).1,
         (runAux (okPage "u".toList 0 false) 1 [actWaitD] wInit).2) :=
  C9_unknown_kind_single_error (okPage "u".toList 0 false) 0 actFrob wInit
    [actWaitD] (by decide)

-- --- Claim C10 ---

/-- C10: missing fields of an action step object are defaulted rather than
rejected: a missing `"type"` defaults to the empty string and is reported
as an unknown kind; missing `"selector"` and `"value"` default to the empty
string and are passed as-is to the browser primitive; a missing `"key"` on
a press step defaults to `"Enter"`; a missing `"ms"` on a wait step
defaults to 2000 milliseconds. -/
theorem C10_missing_field_defaults {σ : Type} (P : Page σ) (i : Nat) (w : W σ) :
    (∀ a : Act, a.type = none →
        execStep P i a w = (.unknownErr i "unknown: ".toList, w)) ∧
    (∀ a : Act, a.type = some "click".toList → a.selector = none →
        (execStep P i a w).2.trace = w.trace ++ [.click [] 10000]) ∧
    (∀ a : Act, a.type = some "fill".toList → a.selector = none → a.value = none →
        (execStep P i a w).2.trace = w.trace ++ [.fill [] [] (some 10000)]) ∧
    (∀ a : Act, a.type = some "press".toList → a.key = none →
        (execStep P i a w).2.trace
          = w.trace ++ [.press (a.selector.getD []) "Enter".toList 10000]) ∧
    (∀ a : Act, a.type = some "wait".toList → a.ms = none →
        (execStep P i a w).2.trace = w.trace ++ [.waitForTimeout 2000]) := by
  refine ⟨?_, ?_, ?_, ?_, ?_⟩
  · intro a ha
    rw [execStep_unknown P i a w (by rw [ha]; decide)]
    simp [ha]
  · intro a ha hs
    simp [execStep, ha, hs, stepTry_snd, callP]
  · intro a ha hs hv
    simp [execStep, ha, hs, hv, stepTry_snd, callP]
  · intro a ha hk
    simp [execStep, ha, hk, stepTry_snd, callP]
  · intro a ha hm
    simp [execStep, ha, hm, stepTry_snd, callP]

/-- Witness for C10 at concrete steps with the respective fields missing. -/
theorem C10_witness :
    execStep (okPage "u".toList 0 false) 0 actNoType wInit
      = (.unknownErr 0 "unknown: ".toList, wInit) ∧
    (execStep (okPage "u".toList 0 false) 0 actClickNoSel wInit).2.trace
      = wInit.trace ++ [.click [] 10000] ∧
    (execStep (okPage "u".toList 0 false) 0 actFillNoSel wInit).2.trace
      = wInit.trace ++ [.fill [] [] (some 10000)] ∧
    (execStep (okPage "u".toList 0 false) 0 actPressNoKey wInit).2.trace
      = wInit.trace ++ [.press "#in".toList "Enter".toList 10000] ∧
    (execStep (okPage "u".toList 0 false) 0 actWaitD wInit).2.trace
      = wInit.trace ++ [.waitForTimeout 2000] := by
  refine ⟨?_, ?_, ?_, ?_, ?_⟩
  · exact (C10_missing_field_defaults (okPage "u".toList 0 false) 0 wInit).1
      actNoType rfl
  · exact (C10_missing_field_defaults (okPage "u".toList 0 false) 0 wInit).2.1
      actClickNoSel rfl rfl
  · exact (C10_missing_field_defaults (okPage "u".toList 0 false) 0 wInit).2.2.1
      actFillNoSel rfl rfl rfl
  · exact (C10_missing_field_defaults (okPage "u".toList 0 false) 0 wInit).2.2.2.1
      actPressNoKey rfl rfl
  · exact (C10_missing_field_defaults (okPage "u".toList 0 false) 0 wInit).2.2.2.2
      actWaitD rfl rfl

-- --- Claim C2 ---

/-- An initial empty `captured` dictionary for concrete runs. -/
def cap0 : Captured := ⟨[], [], [], [], none⟩

/-- C2: in the fast path, for a stored session whose cookies are replayed,
the session is classified invalid exactly when the resulting address
contains a login-redirect marker (`ReturnUrl` or `Startpage`) or a visible
`Log In` control is present (the locator matches and reports visible); any
navigation exception during the attempt yields the invalid classification
and is never propagated (the classifier is a total function into `Bool`);
and whenever the session is classified valid, the slow-path credential
login flow is not entered. -/
theorem C2_fast_path_classification {σ : Type} (P : Page σ) (cs : List Cookie)
    (ab tgt : Str) (w : W σ) (hcs : cs.isEmpty = false) (hab : ab.isEmpty = false) :
    (∀ (s1 : σ) (e : Str) (s2 : σ),
        P.addCookies cs w.pg = (.ok (), s1) →
        P.goto (rewriteTarget tgt ab) dclS 25000 s1 = (.error e, s2) →
        (fastPath P cs ab tgt w).1 = false) ∧
    (∀ (s1 s2 s3 : σ) (n : Nat) (s4 : σ) (v : Bool) (s5 : σ),
        P.addCookies cs w.pg = (.ok (), s1) →
        P.goto (rewriteTarget tgt ab) dclS 25000 s1 = (.ok (), s2) →
        P.waitForTimeout 2000 s2 = (.ok (), s3) →
        P.locCount loginSel s3 = (.ok n, s4) →
        P.firstIsVisible loginSel s4 = (.ok v, s5) →
        ((fastPath P cs ab tgt w).1 = true ↔
          (hasSubstr (P.getUrl s3) returnUrlMark = false ∧
           hasSubstr (P.getUrl s3) startpageMark = false ∧
           (n = 0 ∨ v = false)))) ∧
    (∀ {α : Type} (username password : Str) (wait_ms : Int)
        (cb : Option (W σ → Except Str Unit × α × W σ)) (a0 : α) (c0 : Captured)
        (wfail : Bool) (store : StoreFile),
        (fastPath P cs ab tgt w).1 = true →
        (flow P username password cs ab tgt wait_ms cb a0 c0 wfail store
          w).2.2.2.1.usedSlow = false) := by
  refine ⟨?_, ?_, ?_⟩
  · intro s1 e s2 h1 h2
    simp [fastPath, callP, hcs, hab, h1, h2]
  · intro s1 s2 s3 n s4 v s5 h1 h2 h3 h4 h5
    simp only [fastPath, callP, hcs, hab, Bool.or_self, Bool.false_eq_true,
      if_false, h1, h2, h3, h4, h5]
    cases hR : hasSubstr (P.getUrl s3) returnUrlMark <;>
      cases hS : hasSubstr (P.getUrl s3) startpageMark <;>
      cases n <;> cases v <;> simp [hR, hS]
  · intro α username password wait_ms cb a0 c0 wfail store hv
    cases cb with
    | none =>
      rcases hx : extract P c0 (fastPath P cs ab tgt w).2.2 with ⟨e4, c4, w4⟩
      cases e4 <;> simp [flow, flowTail, hv, hx]
    | some f =>
      rcases hf : f (fastPath P cs ab tgt w).2.2 with ⟨e2, a2, w2⟩
      cases e2 with
      | error e3 => simp [flow, flowTail, hv, hf]
      | ok u =>
        rcases hx : extract P c0 w2 with ⟨e4, c4, w4⟩
        cases e4 <;> simp [flow, flowTail, hv, hf, hx]

/-- Witness for C2: a valid stored session on a marker-free page with no
Log In control; an invalid classification when navigation raises; and no
slow path entered after a valid classification. -/
theorem C2_witness :
    (fastPath pgValid [ck] www84 BASE wInit).1 = true ∧
    (fastPath (failPage "x".toList) [ck] www84 BASE wInit).1 = false ∧
    (flow pgValid "u".toList "p".toList [ck] www84 BASE 3000
        (none : Option (W Unit → Except Str Unit × Unit × W Unit)) () cap0
        false stStored wInit).2.2.2.1.usedSlow = false := by
  refine ⟨?_, ?_, ?_⟩
  · exact ((C2_fast_path_classification pgValid [ck] www84 BASE wInit (by decide)
      (by decide)).2.1 () () () 0 () false () rfl rfl rfl rfl rfl).mpr
      ⟨by decide, by decide, Or.inl rfl⟩
  · exact (C2_fast_path_classification (failPage "x".toList) [ck] www84 BASE wInit
      (by decide) (by decide)).1 () "Timeout 25000ms exceeded".toList () rfl rfl
  · exact (C2_fast_path_classification pgValid [ck] www84 BASE wInit (by decide)
      (by decide)).2.2 "u".toList "p".toList 3000 none () cap0 false stStored
      (by decide)

-- --- Claim C5 ---

theorem startsWithL_self_append (p x : Str) : startsWithL (p ++ x) p = true := by
  induction p with
  | nil => cases x <;> rfl
  | cons c cs ih => simp [startsWithL, ih]

theorem all_takeWhile (p : Char → Bool) (l : Str) : (l.takeWhile p).all p = true := by
  induction l with
  | nil => rfl
  | cons c cs ih => cases hc : p c <;> simp [List.takeWhile_cons, hc, ih]

/-- A host captured by the `(https://[^/]+)` match starts with the scheme
and its remainder is a nonempty run of non-slash characters. -/
theorem captureHost_shape (url r : Str) (h : captureHost url = some r) :
    startsWithL r httpsPrefix = true ∧ r.drop httpsPrefix.length ≠ [] ∧
    (r.drop httpsPrefix.length).all (fun c => c ≠ '/') = true := by
  simp only [captureHost] at h
  split at h
  · split at h
    · exact absurd h (by simp)
    · rename_i hne
      injection h with h
      subst h
      refine ⟨startsWithL_self_append _ _, ?_, ?_⟩
      · rw [List.drop_left]
        simpa [List.isEmpty_iff] using hne
      · rw [List.drop_left]
        exact all_takeWhile _ _
  · exact absurd h (by simp)

/-- The `auth_base` computed by the slow path is `BASE` or a captured host
(`https://` plus a nonempty slash-free remainder). -/
theorem captureHost_getD_shape (u : Str) :
    (captureHost u).getD BASE = BASE ∨
    (startsWithL ((captureHost u).getD BASE) httpsPrefix = true ∧
     ((captureHost u).getD BASE).drop httpsPrefix.length ≠ [] ∧
     (((captureHost u).getD BASE).drop httpsPrefix.length).all
       (fun c => c ≠ '/') = true) := by
  cases hc : captureHost u with
  | none => left; rfl
  | some r =>
    right
    simpa [hc] using captureHost_shape u r hc

/-- C5: whenever the slow-path login flow runs to completion, the host
captured from the resulting address is the returned authenticated host `ab`,
and the Session Store's save is invoked exactly once, with that host
together with the current cookie set — overwriting the stored record
whatever it held before when the write succeeds, and leaving it untouched
(without raising) when the write faults.  Every record a successful
`_save_session` writes has both fields present, preserving the
SessionRecord invariant. -/
theorem C5_slow_path_persists_record {σ : Type} (P : Page σ)
    (username password tgt : Str) (wait_ms : Int) (wfail : Bool)
    (store : StoreFile) (w : W σ) (ab : Str) (st2 : StoreFile)
    (sv : List (List Cookie × Str)) (wfin : W σ)
    (h : slowPath P username password tgt wait_ms wfail store w
      = (.ok ab, st2, sv, wfin)) :
    (∃ cookies, sv = [(cookies, ab)] ∧
        (wfail = false → st2 = .json ⟨some cookies, some ab⟩) ∧
        (wfail = true → st2 = store)) ∧
    (ab = BASE ∨ (startsWithL ab httpsPrefix = true ∧
        ab.drop httpsPrefix.length ≠ [] ∧
        (ab.drop httpsPrefix.length).all (fun c => c ≠ '/') = true)) ∧
    (∀ (c2 : List Cookie) (h2 : Str) (s2 : StoreFile),
        _save_session false c2 h2 s2 = .json ⟨some c2, some h2⟩) := by
  rcases hsp : slowPrep P username password w with ⟨ep, w1⟩
  cases ep with
  | error e => simp [slowPath, hsp] at h
  | ok u =>
    rcases hcc : P.contextCookies w1.pg with ⟨ec, sc⟩
    cases ec with
    | error e => simp [slowPath, callP, hsp, hcc] at h
    | ok cookies =>
      rcases hg : P.goto (rewriteTarget tgt ((captureHost (P.getUrl w1.pg)).getD BASE))
          dclS 30000 sc with ⟨eg, sg⟩
      cases eg with
      | error e =>
        simp only [slowPath, callP, hsp, hcc, hg] at h
        injection h with h1 h2
        injection h1
      | ok u2 =>
        rcases hw : P.waitForTimeout wait_ms sg with ⟨ew, sw⟩
        cases ew with
        | error e =>
          simp only [slowPath, callP, hsp, hcc, hg, hw] at h
          injection h with h1 h2
          injection h1
        | ok u3 =>
          simp only [slowPath, callP, hsp, hcc, hg, hw] at h
          injection h with h1 h2
          injection h1 with h1
          injection h2 with h2 h3
          injection h3 with h3 h4
          subst h1
          subst h2
          subst h3
          refine ⟨⟨cookies, rfl, ?_, ?_⟩, captureHost_getD_shape _,
            fun c2 h2a s2 => rfl⟩
          · intro hwF
            simp [hwF, _save_session, writeSessionFile]
          · intro hwT
            simp [hwT, _save_session, writeSessionFile]

/-- Witness for C5 at a concrete completed slow-path run: the save log
holds exactly one entry with the captured `www84` host. -/
theorem C5_witness :
    ∃ cookies,
      (slowPath pgValid "u".toList "p".toList "/en/x".toList 3000 false
        .absent wInit).2.2.1 = [(cookies, www84)] := by
  have h1 : (slowPath pgValid "u".toList "p".toList "/en/x".toList 3000 false
      .absent wInit).1 = Except.ok www84 := by decide
  have hEq : slowPath pgValid "u".toList "p".toList "/en/x".toList 3000 false
      .absent wInit
      = (Except.ok www84,
         (slowPath pgValid "u".toList "p".toList "/en/x".toList 3000 false
           .absent wInit).2.1,
         (slowPath pgValid "u".toList "p".toList "/en/x".toList 3000 false
           .absent wInit).2.2.1,
         (slowPath pgValid "u".toList "p".toList "/en/x".toList 3000 false
           .absent wInit).2.2.2) := by
    rw [← h1]
  obtain ⟨cs2, hsv, -, -⟩ := (C5_slow_path_persists_record pgValid "u".toList
      "p".toList "/en/x".toList 3000 false .absent wInit www84 _ _ _ hEq).1
  exact ⟨cs2, hsv⟩

-- --- Claim C6 ---

/-- A page sitting on `www84` club page with no Log In control. -/
def pg84 : Page Unit := okPage "https://www84.hattrick.org/en/Club/".toList 0 false

/-- A concrete `flow` run: valid stored session for `www84` (fast path
succeeds, so the authenticated host is known), then a single
`{"type": "goto", "url": "/en/Club/"}` action step. -/
def c6run : Except Str Unit × List ActionResult × Captured × FlowGhost
    × StoreFile × List (List Cookie × Str) × W Unit :=
  flow pg84 [] [] [ck] www84 "https://www.hattrick.org/en/Club/".toList 3000
    (some (fun w => run pg84 [actGotoClub] w)) ([] : List ActionResult) cap0
    false stStored wInit

/-- Counterexample to C6 as stated: with the authenticated host `www84`
known (the fast path logged in), the root-relative `goto` action step
navigates to the canonical root `https://www.hattrick.org/en/Club/`, not to
the authenticated host `https://www84.hattrick.org/en/Club/`. -/
theorem C6_counterexample :
    c6run.2.2.2.1.loggedInFast = true ∧
    c6run.2.2.2.2.2.2.trace.contains
      (PCall.goto "https://www.hattrick.org/en/Club/".toList networkidleS 20000)
      = true ∧
    c6run.2.2.2.2.2.2.trace.contains
      (PCall.goto "https://www84.hattrick.org/en/Club/".toList networkidleS 20000)
      = false := by
  refine ⟨?_, ?_, ?_⟩ <;> decide

/-- C6 (amended): navigations performed by the controller itself rewrite a
canonical-root absolute address (and, via `_open_page`'s pre-resolution, a
root-relative path) onto the authenticated host — the fast path navigates
to `rewriteTarget target savedHost`, and the slow path's final navigation
goes to `rewriteTarget target capturedHost`; but the url of a `goto` action
step is not rewritten onto the authenticated host: a root-relative url is
resolved against the canonical root `BASE` and an absolute url is used
as-is. -/
theorem C6_navigation_rewrite_amended {σ : Type} (P : Page σ) :
    (∀ p b : Str, rewriteTarget (BASE ++ p) b = b ++ p) ∧
    (∀ (cs : List Cookie) (ab tgt : Str) (w : W σ) (s1 : σ),
        cs.isEmpty = false → ab.isEmpty = false →
        P.addCookies cs w.pg = (.ok (), s1) →
        ∃ tr, (fastPath P cs ab tgt w).2.2.trace
          = w.trace ++ [.addCookies cs, .goto (rewriteTarget tgt ab) dclS 25000]
            ++ tr) ∧
    (∀ (username password tgt : Str) (wait_ms : Int) (wfail : Bool)
        (store : StoreFile) (w : W σ) (ab : Str) (st2 : StoreFile)
        (sv : List (List Cookie × Str)) (wfin : W σ),
        slowPath P username password tgt wait_ms wfail store w
          = (.ok ab, st2, sv, wfin) →
        ∃ tr, wfin.trace
          = tr ++ [.goto (rewriteTarget tgt ab) dclS 30000,
                   .waitForTimeout wait_ms]) ∧
    (∀ (i : Nat) (a : Act) (w : W σ), a.type = some "goto".toList →
        ∃ tr, (execStep P i a w).2.trace
          = w.trace ++ [.goto (if startsWithL (a.url.getD []) slashS then
              BASE ++ a.url.getD [] else a.url.getD []) networkidleS 20000]
            ++ tr) := by
  refine ⟨?_, ?_, ?_, ?_⟩
  · intro p b
    unfold rewriteTarget
    rw [if_pos (startsWithL_self_append BASE p),
        replace1_of_startsWith BASE b (BASE ++ p) (startsWithL_self_append BASE p),
        List.drop_left]
  · intro cs ab tgt w s1 hcs hab h1
    rcases hg : P.goto (rewriteTarget tgt ab) dclS 25000 s1 with ⟨eg, sg⟩
    cases eg with
    | error e => exact ⟨[], by simp [fastPath, callP, hcs, hab, h1, hg]⟩
    | ok u =>
      rcases hwt : P.waitForTimeout 2000 sg with ⟨ew, sw⟩
      cases ew with
      | error e =>
        exact ⟨[.waitForTimeout 2000],
          by simp [fastPath, callP, hcs, hab, h1, hg, hwt]⟩
      | ok u2 =>
        cases hM : (hasSubstr (P.getUrl sw) returnUrlMark
            || hasSubstr (P.getUrl sw) startpageMark) with
        | true =>
          exact ⟨[.waitForTimeout 2000],
            by simp [fastPath, callP, hcs, hab, h1, hg, hwt, hM]⟩
        | false =>
          rcases hlc : P.locCount loginSel sw with ⟨en, sn⟩
          cases en with
          | error e =>
            exact ⟨[.waitForTimeout 2000, .locCount loginSel],
              by simp [fastPath, callP, hcs, hab, h1, hg, hwt, hM, hlc]⟩
          | ok n =>
            cases n with
            | zero =>
              exact ⟨[.waitForTimeout 2000, .locCount loginSel],
                by simp [fastPath, callP, hcs, hab, h1, hg, hwt, hM, hlc]⟩
            | succ m =>
              rcases hv : P.firstIsVisible loginSel sn with ⟨ev, sv2⟩
              cases ev with
              | error e =>
                exact ⟨[.waitForTimeout 2000, .locCount loginSel,
                    .firstIsVisible loginSel],
                  by simp [fastPath, callP, hcs, hab, h1, hg, hwt, hM, hlc, hv]⟩
              | ok v =>
                cases v <;>
                  exact ⟨[.waitForTimeout 2000, .locCount loginSel,
                      .firstIsVisible loginSel],
                    by simp [fastPath, callP, hcs, hab, h1, hg, hwt, hM, hlc, hv]⟩
  · intro username password tgt wait_ms wfail store w ab st2 sv wfin h
    rcases hsp : slowPrep P username password w with ⟨ep, w1⟩
    cases ep with
    | error e => simp [slowPath, hsp] at h
    | ok u =>
      rcases hcc : P.contextCookies w1.pg with ⟨ec, sc⟩
      cases ec with
      | error e => simp [slowPath, callP, hsp, hcc] at h
      | ok cookies =>
        rcases hg : P.goto
            (rewriteTarget tgt ((captureHost (P.getUrl w1.pg)).getD BASE))
            dclS 30000 sc with ⟨eg, sg⟩
        cases eg with
        | error e =>
          simp only [slowPath, callP, hsp, hcc, hg] at h
          injection h with h1 h2
          injection h1
        | ok u2 =>
          rcases hw : P.waitForTimeout wait_ms sg with ⟨ew, sw⟩
          cases ew with
          | error e =>
            simp only [slowPath, callP, hsp, hcc, hg, hw] at h
            injection h with h1 h2
            injection h1
          | ok u3 =>
            simp only [slowPath, callP, hsp, hcc, hg, hw] at h
            injection h with h1 h2
            injection h1 with h1
            injection h2 with h2 h3
            injection h3 with h3 h4
            subst h1
            subst h4
            exact ⟨w1.trace ++ [.contextCookies], by simp⟩
  · intro i a w ha
    rcases hg : P.goto (if startsWithL (a.url.getD []) slashS then
        BASE ++ a.url.getD [] else a.url.getD []) networkidleS 20000 w.pg
      with ⟨eg, sg⟩
    cases eg with
    | error e =>
      exact ⟨[], by simp [execStep, ha, andThen, callP, stepTry_snd, hg]⟩
    | ok u =>
      refine ⟨[.waitForTimeout 2000], ?_⟩
      rcases hwt : P.waitForTimeout 2000 sg with ⟨ew, sw⟩
      cases ew <;> simp [execStep, ha, andThen, callP, stepTry_snd, hg, hwt]

/-- Witness for C6 (amended) at concrete inputs: rewriting algebra, the
fast-path navigation entry, the slow path's final navigation, and the
BASE-resolution of a root-relative `goto` step. -/
theorem C6_witness :
    rewriteTarget (BASE ++ "/en/x".toList) www84 = www84 ++ "/en/x".toList ∧
    (∃ tr, (fastPath pgValid [ck] www84 BASE wInit).2.2.trace
      = wInit.trace ++ [.addCookies [ck],
          .goto (rewriteTarget BASE www84) dclS 25000] ++ tr) ∧
    (∃ tr, (slowPath pgValid "u".toList "p".toList "/en/x".toList 3000 false
        .absent wInit).2.2.2.trace
      = tr ++ [.goto (rewriteTarget "/en/x".toList www84) dclS 30000,
               .waitForTimeout 3000]) ∧
    (∃ tr, (execStep pg84 0 actGotoClub wInit).2.trace
      = wInit.trace ++ [.goto (if startsWithL (actGotoClub.url.getD []) slashS
          then BASE ++ actGotoClub.url.getD [] else actGotoClub.url.getD [])
          networkidleS 20000] ++ tr) := by
  refine ⟨?_, ?_, ?_, ?_⟩
  · exact (C6_navigation_rewrite_amended pgValid).1 "/en/x".toList www84
  · exact (C6_navigation_rewrite_amended pgValid).2.1 [ck] www84 BASE wInit ()
      (by decide) (by decide) rfl
  · have h1 : (slowPath pgValid "u".toList "p".toList "/en/x".toList 3000 false
        .absent wInit).1 = Except.ok www84 := by decide
    have hEq : slowPath pgValid "u".toList "p".toList "/en/x".toList 3000 false
        .absent wInit
        = (Except.ok www84,
           (slowPath pgValid "u".toList "p".toList "/en/x".toList 3000 false
             .absent wInit).2.1,
           (slowPath pgValid "u".toList "p".toList "/en/x".toList 3000 false
             .absent wInit).2.2.1,
           (slowPath pgValid "u".toList "p".toList "/en/x".toList 3000 false
             .absent wInit).2.2.2) := by
      rw [← h1]
    exact (C6_navigation_rewrite_amended pgValid).2.2.1 "u".toList "p".toList
      "/en/x".toList 3000 false .absent wInit www84 _ _ _ hEq
  · exact (C6_navigation_rewrite_amended pg84).2.2.2 0 actGotoClub wInit rfl

-- --- Claim C7 ---

/-- Extraction never touches the `error` field of the snapshot. -/
theorem extract_error (P : Page σ) (c0 : Captured) (w : W σ) :
    (extract P c0 w).2.1.error = c0.error := by
  simp only [extract, callP]
  repeat' split
  all_goals rfl

/-- A flow that returns `ok` hands back a snapshot whose `error` field is
the initial one (`flow` never writes it; only `_open_page`'s handler
does). -/
theorem flowTail_ok_error_none {σ α : Type} (P : Page σ)
    (cb : Option (W σ → Except Str Unit × α × W σ)) (a0 : α) (c0 : Captured)
    (hc0 : c0.error = none) (li us : Bool) (fb : Str)
    (aa : Except Str Str × StoreFile × List (List Cookie × Str) × W σ)
    (x : Unit) (a : α) (c : Captured) (g : FlowGhost) (st : StoreFile)
    (sv : List (List Cookie × Str)) (wk : W σ)
    (h : flowTail P cb a0 c0 li us fb aa = (.ok x, a, c, g, st, sv, wk)) :
    c.error = none := by
  rcases aa with ⟨ea, sta, sva, wa⟩
  cases ea with
  | error e => simp [flowTail] at h
  | ok ab =>
    cases cb with
    | none =>
      rcases hx : extract P c0 wa with ⟨e4, c4, w4⟩
      cases e4 with
      | error e => simp [flowTail, hx] at h
      | ok u =>
        simp only [flowTail, hx, Prod.mk.injEq] at h
        obtain ⟨-, -, hc, -⟩ := h
        subst hc
        have h3 := extract_error P c0 wa
        rw [hx] at h3
        rw [h3, hc0]
    | some f =>
      rcases hf : f wa with ⟨e2, a2, w2⟩
      cases e2 with
      | error e => simp [flowTail, hf] at h
      | ok u2 =>
        rcases hx : extract P c0 w2 with ⟨e4, c4, w4⟩
        cases e4 with
        | error e => simp [flowTail, hf, hx] at h
        | ok u =>
          simp only [flowTail, hf, hx, Prod.mk.injEq] at h
          obtain ⟨-, -, hc, -⟩ := h
          subst hc
          have h3 := extract_error P c0 w2
          rw [hx] at h3
          rw [h3, hc0]

/-- C7: the engine never terminates the host process — `_open_page` is a
total function into a snapshot.  Any exception escaping the browser flow
(the fetch setup, the authentication paths, the caller-supplied callback,
or extraction) is caught by the enclosing handler, and the call still
returns the structured, partial snapshot accumulated so far with its
`error` field populated with the exception text; when nothing escapes, the
snapshot is returned with `error = None`. -/
theorem C7_open_page_error_captured {σ α : Type} (P : Page σ)
    (username password tgt0 : Str)
    (cb : Option (W σ → Except Str Unit × α × W σ)) (a0 : α) (wait_ms : Int)
    (wfail : Bool) (store : StoreFile) (w0 : W σ) :
    (∀ (e : Str) (s1 : σ), P.fetchInit w0.pg = (.error e, s1) →
        (_open_page P username password tgt0 cb a0 wait_ms wfail store w0).1
          = ⟨[], (if startsWithL tgt0 slashS then BASE ++ tgt0 else tgt0),
             [], [], some e⟩) ∧
    (∀ (s1 : σ) (e : Str) (a : α) (c : Captured) (g : FlowGhost)
        (st : StoreFile) (sv : List (List Cookie × Str)) (wk : W σ),
        P.fetchInit w0.pg = (.ok (), s1) →
        flow P username password ((_load_session store).cookies.getD [])
            ((_load_session store).auth_base.getD [])
            (if startsWithL tgt0 slashS then BASE ++ tgt0 else tgt0) wait_ms cb
            a0
            ⟨[], (if startsWithL tgt0 slashS then BASE ++ tgt0 else tgt0), [],
             [], none⟩
            wfail store { w0 with pg := s1, trace := w0.trace ++ [.fetchInit] }
          = (.error e, a, c, g, st, sv, wk) →
        (_open_page P username password tgt0 cb a0 wait_ms wfail store w0).1
            = { c with error := some e } ∧
        (_open_page P username password tgt0 cb a0 wait_ms wfail store w0).2.1
          = a) ∧
    (∀ (s1 : σ) (u : Unit) (a : α) (c : Captured) (g : FlowGhost)
        (st : StoreFile) (sv : List (List Cookie × Str)) (wk : W σ),
        P.fetchInit w0.pg = (.ok (), s1) →
        flow P username password ((_load_session store).cookies.getD [])
            ((_load_session store).auth_base.getD [])
            (if startsWithL tgt0 slashS then BASE ++ tgt0 else tgt0) wait_ms cb
            a0
            ⟨[], (if startsWithL tgt0 slashS then BASE ++ tgt0 else tgt0), [],
             [], none⟩
            wfail store { w0 with pg := s1, trace := w0.trace ++ [.fetchInit] }
          = (.ok u, a, c, g, st, sv, wk) →
        (_open_page P username password tgt0 cb a0 wait_ms wfail store w0).1 = c
          ∧ c.error = none) := by
  refine ⟨?_, ?_, ?_⟩
  · intro e s1 hf
    simp [_open_page, callP, hf]
  · intro s1 e a c g st sv wk hf hflow
    constructor <;> simp [_open_page, callP, hf, hflow]
  · intro s1 u a c g st sv wk hf hflow
    constructor
    · simp [_open_page, callP, hf, hflow]
    · exact flowTail_ok_error_none P cb a0 _ rfl _ _ _ _ u a c g st sv wk hflow

/-- A page whose fetch setup raises. -/
def fetchFailPg : Page Unit :=
  { okPage "u".toList 0 false with
    fetchInit := fun s => (.error "net::ERR_PROXY_CONNECTION_FAILED".toList, s) }

/-- A page on a valid authenticated address whose `evaluate` raises, so the
flow fails during extraction. -/
def evalFailPg : Page Unit :=
  { okPage "https://www84.hattrick.org/en/Club/".toList 0 false with
    evaluate := fun _ s => (.error "Evaluation failed: ReferenceError".toList, s) }

/-- The concrete failing `flow` run used by the C7 witness. -/
def c7flowErr : Except Str Unit × Unit × Captured × FlowGhost × StoreFile
    × List (List Cookie × Str) × W Unit :=
  flow evalFailPg [] [] ((_load_session stStored).cookies.getD [])
    ((_load_session stStored).auth_base.getD [])
    (if startsWithL "/en/x".toList slashS then BASE ++ "/en/x".toList
     else "/en/x".toList) 3000
    (none : Option (W Unit → Except Str Unit × Unit × W Unit)) ()
    ⟨[], (if startsWithL "/en/x".toList slashS then BASE ++ "/en/x".toList
          else "/en/x".toList), [], [], none⟩
    false stStored { wInit with pg := (), trace := wInit.trace ++ [.fetchInit] }

/-- The concrete successful `flow` run used by the C7 witness. -/
def c7flowOk : Except Str Unit × Unit × Captured × FlowGhost × StoreFile
    × List (List Cookie × Str) × W Unit :=
  flow pgValid [] [] ((_load_session stStored).cookies.getD [])
    ((_load_session stStored).auth_base.getD [])
    (if startsWithL "/en/x".toList slashS then BASE ++ "/en/x".toList
     else "/en/x".toList) 3000
    (none : Option (W Unit → Except Str Unit × Unit × W Unit)) ()
    ⟨[], (if startsWithL "/en/x".toList slashS then BASE ++ "/en/x".toList
          else "/en/x".toList), [], [], none⟩
    false stStored { wInit with pg := (), trace := wInit.trace ++ [.fetchInit] }

/-- Witness for C7: a failing fetch, a failing extraction, and a clean run,
each at concrete inputs. -/
theorem C7_witness :
    (_open_page fetchFailPg [] [] "/en/x".toList
        (none : Option (W Unit → Except Str Unit × Unit × W Unit)) () 3000 false
        stStored wInit).1
      = ⟨[], BASE ++ "/en/x".toList, [], [],
         some "net::ERR_PROXY_CONNECTION_FAILED".toList⟩ ∧
    (_open_page evalFailPg [] [] "/en/x".toList
        (none : Option (W Unit → Except Str Unit × Unit × W Unit)) () 3000 false
        stStored wInit).1.error
      = some "Evaluation failed: ReferenceError".toList ∧
    (_open_page pgValid [] [] "/en/x".toList
        (none : Option (W Unit → Except Str Unit × Unit × W Unit)) () 3000 false
        stStored wInit).1.error = none := by
  refine ⟨?_, ?_, ?_⟩
  · exact (C7_open_page_error_captured fetchFailPg [] [] "/en/x".toList none ()
      3000 false stStored wInit).1 "net::ERR_PROXY_CONNECTION_FAILED".toList ()
      rfl
  · have h1 : c7flowErr.1
        = Except.error "Evaluation failed: ReferenceError".toList := by decide
    have hEq : c7flowErr
        = (Except.error "Evaluation failed: ReferenceError".toList,
           c7flowErr.2.1, c7flowErr.2.2.1, c7flowErr.2.2.2.1,
           c7flowErr.2.2.2.2.1, c7flowErr.2.2.2.2.2.1,
           c7flowErr.2.2.2.2.2.2) := by
      rw [← h1]
    have h2 := ((C7_open_page_error_captured evalFailPg [] [] "/en/x".toList
      none () 3000 false stStored wInit).2.1 ()
      "Evaluation failed: ReferenceError".toList c7flowErr.2.1 c7flowErr.2.2.1
      c7flowErr.2.2.2.1 c7flowErr.2.2.2.2.1 c7flowErr.2.2.2.2.2.1
      c7flowErr.2.2.2.2.2.2 rfl hEq).1
    rw [h2]
  · have h1 : c7flowOk.1 = Except.ok () := by decide
    have hEq : c7flowOk = (Except.ok (), c7flowOk.2.1, c7flowOk.2.2.1,
        c7flowOk.2.2.2.1, c7flowOk.2.2.2.2.1, c7flowOk.2.2.2.2.2.1,
        c7flowOk.2.2.2.2.2.2) := by
      rw [← h1]
    obtain ⟨hc, he⟩ := (C7_open_page_error_captured pgValid [] [] "/en/x".toList
      none () 3000 false stStored wInit).2.2 () () c7flowOk.2.1 c7flowOk.2.2.1
      c7flowOk.2.2.2.1 c7flowOk.2.2.2.2.1 c7flowOk.2.2.2.2.2.1
      c7flowOk.2.2.2.2.2.2 rfl hEq
    rw [hc]
    exact he
